import Mathlib

/-!
Verification development for `onnxruntime/core/graph/model.cc`: a shallow
embedding of the `Model` construction / opset-negotiation algorithm and the
load/save entry points, together with proofs of the specified properties.

External collaborators (the protobuf codec, the `Graph` engine's `Resolve`,
the schema registry's `GetLatestOpsetVersions`, and the platform file
primitives `FileOpenRd` / `FileClose`) are represented by explicit
parameters carrying their observable outcome, as the source consumes them
only through those outcomes.
-/

set_option maxHeartbeats 1000000

/-- Category of an onnxruntime `common::Status`: the runtime's own taxonomy
or an OS (`SYSTEM`) error carrying an errno value. -/
inductive StatusCategory where
  | ONNXRUNTIME
  | SYSTEM
deriving DecidableEq, Repr

/-- `onnxruntime::common::Status`: either OK or an error with a category, a
numeric code and a human-readable message. -/
inductive Status where
  | ok
  | error (category : StatusCategory) (code : Nat) (msg : String)
deriving DecidableEq, Repr

/-- `Status::IsOK()`. -/
def Status.isOK : Status → Bool
  | Status.ok => true
  | Status.error _ _ _ => false

/-- `common::StatusCode::FAIL`. -/
def FAIL : Nat := 1

/-- `common::StatusCode::INVALID_ARGUMENT`. -/
def INVALID_ARGUMENT : Nat := 2

/-- `common::StatusCode::NO_SUCHFILE`. -/
def NO_SUCHFILE : Nat := 3

/-- `common::StatusCode::INVALID_PROTOBUF`. -/
def INVALID_PROTOBUF : Nat := 7

/-- OS errno for a missing file. -/
def ENOENT : Nat := 2

/-- OS errno for an invalid argument. -/
def EINVAL : Nat := 22

/-- Update-or-append on an association list, modelling assignment through
`operator[]` on `std::unordered_map<std::string, _>`: an existing key keeps
its position and gets the new value, a fresh key is appended. -/
def mapInsert {α : Type} : List (String × α) → String → α → List (String × α)
  | [], k, v => [(k, v)]
  | p :: rest, k, v => if p.1 = k then (p.1, v) :: rest else p :: mapInsert rest k v

/-- Lookup on an association list, modelling `unordered_map::find`. -/
def mapFind? {α : Type} : List (String × α) → String → Option α
  | [], _ => none
  | p :: rest, k => if p.1 = k then some p.2 else mapFind? rest k

/-- The keys of an association list. -/
def mapKeys {α : Type} (m : List (String × α)) : List String :=
  m.map Prod.fst

/-- `ONNX_NAMESPACE::OperatorSetIdProto`: one entry of the opset-import list. -/
structure OperatorSetIdProto where
  domain : String
  version : Int
deriving DecidableEq, Repr

/-- `ONNX_NAMESPACE::StringStringEntryProto`: one metadata property. -/
structure StringStringEntryProto where
  key : String
  value : String
deriving DecidableEq, Repr

/-- `ONNX_NAMESPACE::FunctionProto`, reduced to the field this translation
unit reads (its `name`). -/
structure FunctionProto where
  name : String
deriving DecidableEq, Repr

/-- `ONNX_NAMESPACE::GraphProto`, opaque to this translation unit except for
its presence and the `name` field written by the fresh constructor. -/
structure GraphProto where
  name : String
deriving DecidableEq, Repr

/-- `ONNX_NAMESPACE::ModelProto`: the fields `model.cc` reads or writes.
Optional scalar fields use `Option` for protobuf `has_` presence. -/
structure ModelProto where
  irVersion : Option Int := none
  producerName : String := ""
  producerVersion : String := ""
  domain : String := ""
  modelVersion : Option Int := none
  docString : String := ""
  graph : Option GraphProto := none
  opsetImport : List OperatorSetIdProto := []
  metadataProps : List StringStringEntryProto := []
  functions : List FunctionProto := []
deriving DecidableEq, Repr

/-- `kOnnxDomain`: the canonical default-domain key (the empty string). -/
def kOnnxDomain : String := ""

/-- `kOnnxDomainAlias`: the alias spelling of the default domain. -/
def kOnnxDomainAlias : String := "ai.onnx"

/-- `ONNX_NAMESPACE::Version::IR_VERSION` at the pinned onnx revision; the
exact value lives in the external onnx library and no claim depends on it. -/
def IR_VERSION : Int := 4

/-- `onnxruntime::kNoVersion`, the "unset" sentinel returned by the
`IrVersion` / `ModelVersion` accessors. -/
def kNoVersion : Int := -1

/-- `onnxruntime::Model`: the owned descriptor, the denormalized metadata
map, the negotiated domain-to-version table handed to the `Graph` engine and
the function-name map handed to the engine. -/
structure Model where
  model_proto : ModelProto
  model_metadata : List (String × String)
  domain_to_version : List (String × Int)
  model_functions_map : List (String × FunctionProto)
deriving DecidableEq, Repr

/-- One step of the explicit opset-import processing loop of
`Model::Model(std::unique_ptr<ModelProto>, ...)` (model.cc:107-130): an
alias-spelled domain is written into the table under the canonical key,
any other domain under its own name.  The `version < 7` warning on the
default domain is a pure logging side effect and has no state. -/
def addOpset (m : List (String × Int)) (o : OperatorSetIdProto) : List (String × Int) :=
  if o.domain = kOnnxDomainAlias then mapInsert m kOnnxDomain o.version
  else mapInsert m o.domain o.version

/-- The resolved table produced from the descriptor's explicit opset-import
list by the loop at model.cc:107-130. -/
def normalizeOpsets (l : List OperatorSetIdProto) : List (String × Int) :=
  l.foldl addOpset []

/-- One step of the default-fill loop at model.cc:133-140: a registry domain
absent from the resolved table is added to the table and appended to the
descriptor's opset-import list; a present domain leaves both untouched. -/
def fillStep (acc : List (String × Int) × ModelProto) (p : String × Int) :
    List (String × Int) × ModelProto :=
  if mapFind? acc.1 p.1 = none then
    (mapInsert acc.1 p.1 p.2,
     { acc.2 with opsetImport := acc.2.opsetImport ++ [⟨p.1, p.2⟩] })
  else acc

/-- Rebuilding the in-memory metadata map from `metadata_props`
(model.cc:95-97); a later entry with the same key overwrites an earlier one. -/
def buildMetaData (props : List StringStringEntryProto) : List (String × String) :=
  props.foldl (fun m p => mapInsert m p.key p.value) []

/-- Building the function-name map (model.cc:142-145 and 63-68);
a later function with the same name overwrites an earlier one. -/
def buildFunctionsMap (fns : List FunctionProto) : List (String × FunctionProto) :=
  fns.foldl (fun m f => mapInsert m f.name f) []

/-- The decode-from-descriptor constructor
`Model::Model(std::unique_ptr<ModelProto>, const IOnnxRuntimeOpSchemaRegistryList*)`
(model.cc:79-150).  `latest` is the outcome of the external call
`schema_registry->GetLatestOpsetVersions(false)` (model.cc:132).  A thrown
`std::invalid_argument` is modelled as `Except.error` carrying the
exception's message; `Except.ok` carries the constructed instance. -/
def Model.ofProto (proto? : Option ModelProto) (latest : List (String × Int)) :
    Except String Model :=
  match proto? with
  | none => Except.error "ModelProto was null."
  | some proto =>
    if proto.graph.isNone then Except.error "ModelProto does not have a graph."
    else if proto.opsetImport.length = 0 then
      Except.error "Missing opset in the model. All ModelProtos MUST have at least one entry that specifies which version of the ONNX OperatorSet is being imported."
    else
      let st := latest.foldl fillStep (normalizeOpsets proto.opsetImport, proto)
      Except.ok
        { model_proto := st.2
          model_metadata := buildMetaData proto.metadataProps
          domain_to_version := st.1
          model_functions_map := buildFunctionsMap st.2.functions }

/-- The fresh constructor `Model::Model(const std::string& graph_name, ...)`
(model.cc:29-73).  `latest` is the outcome of the external call
`schema_registry->GetLatestOpsetVersions(is_onnx_domain_only)` used when the
caller-supplied `domain_to_version` map is empty (model.cc:50-55). -/
def Model.fresh (graph_name : String) (model_metadata : List (String × String))
    (domain_to_version : List (String × Int)) (latest : List (String × Int))
    (model_functions : List FunctionProto) : Model :=
  let p := if domain_to_version.isEmpty then latest else domain_to_version
  { model_proto :=
      { irVersion := some IR_VERSION
        graph := some { name := graph_name }
        metadataProps := model_metadata.map (fun kv => { key := kv.1, value := kv.2 })
        opsetImport := p.map (fun dv => { domain := dv.1, version := dv.2 })
        functions := model_functions }
    model_metadata := model_metadata
    domain_to_version := p
    model_functions_map := buildFunctionsMap model_functions }

/-- `Model::ToProto` (model.cc:220-223): overwrite the descriptor's graph
field with the engine's current graph representation (`engineGraph`, the
outcome of the external call `graph_->ToGraphProto()`) and return the
descriptor. -/
def Model.ToProto (m : Model) (engineGraph : GraphProto) : ModelProto :=
  { m.model_proto with graph := some engineGraph }

/-- Outcome of a load entry point: a returned `Status`, or an exception that
escaped the entry point uncaught. -/
inductive LoadResult where
  | status (s : Status)
  | thrown (msg : String)
deriving DecidableEq, Repr

/-- `Model::Load(std::istream&, ModelProto*)` (model.cc:225-238).  The
stream's state, the output pointer's nullness and the external parse outcome
(`ParseFromZeroCopyStream` success and `eof` reached) are the observable
inputs; the second component of the result records whether the parse
primitive was invoked (i.e. whether any bytes may have been read). -/
def Model.LoadStream (streamGood protoPtrNull parseOk eofReached : Bool) : Status × Bool :=
  if !streamGood then
    (Status.error StatusCategory.ONNXRUNTIME INVALID_ARGUMENT "Invalid istream object.", false)
  else if protoPtrNull then
    (Status.error StatusCategory.ONNXRUNTIME INVALID_ARGUMENT "Null model_proto ptr.", false)
  else if parseOk && eofReached then (Status.ok, true)
  else
    (Status.error StatusCategory.ONNXRUNTIME INVALID_PROTOBUF
      "Failed to load model because protobuf parsing failed.", true)

/-- `Model::Load(const ModelProto&, std::shared_ptr<Model>&, ...)`
(model.cc:240-257).  `resolveResult` is the outcome of the external call
`model->MainGraph().Resolve(true)`.  The first component is the final state
of the caller's (initially unbound) output handle `model`. -/
def Model.LoadProto (model_proto : ModelProto) (latest : List (String × Int))
    (resolveResult : Status) : Option Model × LoadResult :=
  if model_proto.graph.isNone then
    (none, LoadResult.status
      (Status.error StatusCategory.ONNXRUNTIME INVALID_ARGUMENT "No graph was found in the protobuf."))
  else
    match Model.ofProto (some model_proto) latest with
    | Except.error e =>
      (none, LoadResult.status
        (Status.error StatusCategory.ONNXRUNTIME INVALID_ARGUMENT
          ("Failed to load model with error: " ++ e)))
    | Except.ok m =>
      if resolveResult.isOK then (some m, LoadResult.status Status.ok)
      else (some m, LoadResult.status resolveResult)

/-- `Model::LoadFromBytes` (model.cc:353-365).  `parsed` is the outcome of
the external `ParseFromArray(p_bytes, count)` (`none` = parse failure).
There is no try/catch around the construction, so a constructor exception
escapes as `LoadResult.thrown`. -/
def Model.LoadFromBytes (parsed : Option ModelProto) (latest : List (String × Int))
    (resolveResult : Status) : Option Model × LoadResult :=
  match parsed with
  | none =>
    (none, LoadResult.status
      (Status.error StatusCategory.ONNXRUNTIME INVALID_PROTOBUF "Protobuf parsing failed."))
  | some proto =>
    match Model.ofProto (some proto) latest with
    | Except.error e => (none, LoadResult.thrown e)
    | Except.ok m =>
      if resolveResult.isOK then (some m, LoadResult.status Status.ok)
      else (some m, LoadResult.status resolveResult)

/-- `Model::Load(int fd, std::shared_ptr<Model>&, ...)` (model.cc:371-402).
`parsed` is the outcome of the external
`ParseFromZeroCopyStream(&fs) && fs.GetErrno() == 0`.  As in
`LoadFromBytes`, a constructor exception escapes uncaught. -/
def Model.LoadFd (fd : Int) (parsed : Option ModelProto) (latest : List (String × Int))
    (resolveResult : Status) : Option Model × LoadResult :=
  if fd < 0 then
    (none, LoadResult.status
      (Status.error StatusCategory.ONNXRUNTIME INVALID_ARGUMENT "<p_fd> less than 0."))
  else
    match parsed with
    | none =>
      (none, LoadResult.status
        (Status.error StatusCategory.ONNXRUNTIME INVALID_PROTOBUF "Protobuf parsing failed."))
    | some proto =>
      match Model.ofProto (some proto) latest with
      | Except.error e => (none, LoadResult.thrown e)
      | Except.ok m =>
        if resolveResult.isOK then (some m, LoadResult.status Status.ok)
        else (some m, LoadResult.status resolveResult)

/-- Modelled from the spec: the outcome of the platform file-open primitive
`Env::Default().FileOpenRd` / `FileOpenWr` (core/platform, not part of this
translation unit), "treated as an opaque primitive returning a unified
status"; per the spec's error mapping its failures carry the OS error code,
i.e. a `SYSTEM`-category status holding an errno value. -/
inductive OpenResult where
  | opened (fd : Int)
  | sysError (errno : Nat)
deriving DecidableEq, Repr

/-- Outcome of the inner `Model::Save(model, fd)` call of `SaveModel`: a
returned status or a thrown exception. -/
inductive SaveInner where
  | status (s : Status)
  | thrown (msg : String)
deriving DecidableEq, Repr

/-- The path-based `LoadModel` template (model.cc:278-308).  The open
primitive's outcome is `openRes`; on success the inner `Model::Load(fd, ...)`
runs with the given external outcomes; `closeStatus` is the outcome of the
external `Env::Default().FileClose(fd)`.  The second component counts the
`FileClose` calls made. -/
def LoadModel (openRes : OpenResult) (parsed : Option ModelProto)
    (latest : List (String × Int)) (resolveResult : Status) (closeStatus : Status) :
    (Option Model × Status) × Nat :=
  match openRes with
  | OpenResult.sysError errno =>
    if errno = ENOENT then
      ((none, Status.error StatusCategory.ONNXRUNTIME NO_SUCHFILE
        "Load model failed. File doesn't exist"), 0)
    else if errno = EINVAL then
      ((none, Status.error StatusCategory.ONNXRUNTIME INVALID_ARGUMENT "Load model failed"), 0)
    else
      ((none, Status.error StatusCategory.ONNXRUNTIME FAIL
        ("system error number " ++ toString errno)), 0)
  | OpenResult.opened fd =>
    match Model.LoadFd fd parsed latest resolveResult with
    | (m, LoadResult.thrown e) =>
      ((m, Status.error StatusCategory.ONNXRUNTIME FAIL e), 1)
    | (m, LoadResult.status s) =>
      if s.isOK then ((m, closeStatus), 1) else ((m, s), 1)

/-- The path-based `SaveModel` template (model.cc:310-328).  An open failure
is returned verbatim by `ORT_RETURN_IF_ERROR`; on success the inner
`Model::Save(model, fd)` outcome is `inner` and `closeStatus` is the
external `FileClose` outcome.  The second component counts `FileClose`
calls. -/
def SaveModel (openRes : OpenResult) (inner : SaveInner) (closeStatus : Status) :
    Status × Nat :=
  match openRes with
  | OpenResult.sysError errno =>
    (Status.error StatusCategory.SYSTEM errno "open failed", 0)
  | OpenResult.opened _ =>
    match inner with
    | SaveInner.thrown e => (Status.error StatusCategory.ONNXRUNTIME FAIL e, 1)
    | SaveInner.status s => if s.isOK then (closeStatus, 1) else (s, 1)

/-- Normalization of a domain spelling: the alias maps to the canonical
default-domain key, every other spelling to itself. -/
def normDomain (d : String) : String :=
  if d = kOnnxDomainAlias then kOnnxDomain else d

/-- A concrete graph for sample descriptors. -/
def sampleGraph : GraphProto := { name := "g" }

/-- A minimal well-formed descriptor: a graph and one opset entry. -/
def sampleProto : ModelProto :=
  { graph := some sampleGraph, opsetImport := [⟨kOnnxDomain, 9⟩] }

/-- A descriptor with no graph field (and an empty opset list). -/
def noGraphProto : ModelProto := {}

/-- A failing outcome for `Resolve(true)`. -/
def resolveFail : Status :=
  Status.error StatusCategory.ONNXRUNTIME 10 "This is an invalid model."

/-! ### Association-list lemmas -/

theorem mapFind?_mapInsert_self {α : Type} (m : List (String × α)) (k : String) (v : α) :
    mapFind? (mapInsert m k v) k = some v := by
  induction m with
  | nil => simp [mapInsert, mapFind?]
  | cons hd tl ih =>
    obtain ⟨a, b⟩ := hd
    by_cases h : a = k
    · simp [mapInsert, mapFind?, h]
    · simp [mapInsert, mapFind?, h, ih]

theorem mapFind?_mapInsert_ne {α : Type} (m : List (String × α)) (k1 k : String) (v : α)
    (h : k1 ≠ k) : mapFind? (mapInsert m k1 v) k = mapFind? m k := by
  induction m with
  | nil => simp [mapInsert, mapFind?, h]
  | cons hd tl ih =>
    obtain ⟨a, b⟩ := hd
    by_cases h1 : a = k1
    · subst h1
      simp [mapInsert, mapFind?, h]
    · by_cases h2 : a = k
      · subst h2
        simp [mapInsert, mapFind?, Ne.symm h]
      · simp [mapInsert, mapFind?, h1, h2, ih]

theorem mem_mapKeys_mapInsert {α : Type} (m : List (String × α)) (k x : String) (v : α)
    (h : x ∈ mapKeys (mapInsert m k v)) : x = k ∨ x ∈ mapKeys m := by
  induction m with
  | nil => simpa [mapInsert, mapKeys] using h
  | cons hd tl ih =>
    obtain ⟨a, b⟩ := hd
    by_cases h1 : a = k
    · subst h1
      simp only [mapInsert, if_pos] at h
      simp only [mapKeys, List.map_cons, List.mem_cons] at h ⊢
      tauto
    · have he : mapInsert ((a, b) :: tl) k v = (a, b) :: mapInsert tl k v := by
        simp [mapInsert, h1]
      rw [he] at h
      simp only [mapKeys, List.map_cons, List.mem_cons] at h ⊢
      rcases h with h | h
      · tauto
      · rcases ih h with h2 | h2 <;> tauto

theorem nodup_mapKeys_mapInsert {α : Type} (m : List (String × α)) (k : String) (v : α)
    (h : (mapKeys m).Nodup) : (mapKeys (mapInsert m k v)).Nodup := by
  induction m with
  | nil => simp [mapInsert, mapKeys]
  | cons hd tl ih =>
    obtain ⟨a, b⟩ := hd
    simp only [mapKeys, List.map_cons, List.nodup_cons] at h
    by_cases h1 : a = k
    · subst h1
      have he : mapInsert ((a, b) :: tl) a v = (a, v) :: tl := by simp [mapInsert]
      rw [he]
      show (a :: mapKeys tl).Nodup
      rw [List.nodup_cons]
      exact h
    · have he : mapInsert ((a, b) :: tl) k v = (a, b) :: mapInsert tl k v := by
        simp [mapInsert, h1]
      rw [he]
      show (a :: mapKeys (mapInsert tl k v)).Nodup
      rw [List.nodup_cons]
      refine ⟨fun hmem => ?_, ih h.2⟩
      rcases mem_mapKeys_mapInsert tl k a v hmem with h2 | h2
      · exact h1 h2
      · exact h.1 h2

theorem filter_key_eq_nil_of_not_mem {α : Type} (m : List (String × α)) (k : String)
    (h : k ∉ mapKeys m) : m.filter (fun p => p.1 == k) = [] := by
  induction m with
  | nil => simp
  | cons hd tl ih =>
    obtain ⟨a, b⟩ := hd
    simp only [mapKeys, List.map_cons, List.mem_cons, not_or] at h
    have h1 : ((a, b).1 == k) = false := by
      simp only [beq_eq_false_iff_ne, ne_eq]
      exact fun h2 => h.1 h2.symm
    rw [List.filter_cons, h1]
    simp only [Bool.false_eq_true, if_neg, not_false_iff]
    exact ih h.2

theorem filter_key_single_of_nodup {α : Type} (m : List (String × α)) (k : String) (v : α)
    (hnd : (mapKeys m).Nodup) (hf : mapFind? m k = some v) :
    m.filter (fun p => p.1 == k) = [(k, v)] := by
  induction m with
  | nil => simp [mapFind?] at hf
  | cons hd tl ih =>
    obtain ⟨a, b⟩ := hd
    simp only [mapKeys, List.map_cons, List.nodup_cons] at hnd
    by_cases h1 : a = k
    · subst h1
      have hf2 : b = v := by simpa [mapFind?] using hf
      subst hf2
      have h2 : ((a, b).1 == a) = true := by simp
      rw [List.filter_cons, h2]
      have h3 : tl.filter (fun p => p.1 == a) = [] :=
        filter_key_eq_nil_of_not_mem tl a hnd.1
      simp [h3]
    · have h2 : ((a, b).1 == k) = false := by simpa using h1
      rw [List.filter_cons, h2]
      simp only [Bool.false_eq_true, if_neg, not_false_iff]
      have hf2 : mapFind? tl k = some v := by simpa [mapFind?, h1] using hf
      exact ih hnd.2 hf2

theorem mapFind?_of_mem_nodup {α : Type} (m : List (String × α)) (k : String) (v : α)
    (hnd : (mapKeys m).Nodup) (hmem : (k, v) ∈ m) : mapFind? m k = some v := by
  induction m with
  | nil => simp at hmem
  | cons hd tl ih =>
    obtain ⟨a, b⟩ := hd
    simp only [mapKeys, List.map_cons, List.nodup_cons] at hnd
    rcases List.mem_cons.mp hmem with h | h
    · injection h with h3 h4
      subst h3
      subst h4
      simp [mapFind?]
    · have hk : k ∈ mapKeys tl := by
        simp only [mapKeys, List.mem_map]
        exact ⟨(k, v), h, rfl⟩
      have h1 : a ≠ k := fun h2 => hnd.1 (h2 ▸ hk)
      simp only [mapFind?, h1, if_neg, not_false_iff]
      exact ih hnd.2 h

/-! ### The explicit opset-import loop -/

theorem addOpset_eq (m : List (String × Int)) (o : OperatorSetIdProto) :
    addOpset m o = mapInsert m (normDomain o.domain) o.version := by
  unfold addOpset normDomain
  by_cases h : o.domain = kOnnxDomainAlias <;> simp [h]

/-- The version of the last entry of `l` whose normalized domain is `k`. -/
def lastVersionFor (l : List OperatorSetIdProto) (k : String) : Option Int :=
  match l with
  | [] => none
  | o :: rest =>
    match lastVersionFor rest k with
    | some v => some v
    | none => if normDomain o.domain == k then some o.version else none

theorem mapFind?_foldl_addOpset (l : List OperatorSetIdProto)
    (m : List (String × Int)) (k : String) :
    mapFind? (l.foldl addOpset m) k =
      match lastVersionFor l k with
      | some v => some v
      | none => mapFind? m k := by
  induction l generalizing m with
  | nil => simp [lastVersionFor]
  | cons o rest ih =>
    rw [List.foldl_cons, ih (addOpset m o)]
    show _ = (match lastVersionFor (o :: rest) k with
      | some v => some v
      | none => mapFind? m k)
    rw [show lastVersionFor (o :: rest) k =
      (match lastVersionFor rest k with
       | some v => some v
       | none => if normDomain o.domain == k then some o.version else none) from rfl]
    cases hr : lastVersionFor rest k with
    | some v => simp
    | none =>
      simp only
      by_cases hp : normDomain o.domain = k
      · rw [addOpset_eq, hp]
        simp [mapFind?_mapInsert_self]
      · rw [addOpset_eq, mapFind?_mapInsert_ne _ _ _ _ hp]
        simp [hp]

theorem lastVersionFor_filter (l : List OperatorSetIdProto) (k : String) :
    lastVersionFor l k = lastVersionFor (l.filter (fun o => normDomain o.domain == k)) k := by
  induction l with
  | nil => simp
  | cons o rest ih =>
    by_cases hp : (normDomain o.domain == k) = true
    · rw [List.filter_cons, if_pos hp]
      show (match lastVersionFor rest k with
        | some v => some v
        | none => if normDomain o.domain == k then some o.version else none) = _
      rw [show lastVersionFor (o :: List.filter (fun o => normDomain o.domain == k) rest) k =
        (match lastVersionFor (List.filter (fun o => normDomain o.domain == k) rest) k with
         | some v => some v
         | none => if normDomain o.domain == k then some o.version else none) from rfl]
      rw [← ih]
    · rw [List.filter_cons, if_neg hp]
      show (match lastVersionFor rest k with
        | some v => some v
        | none => if normDomain o.domain == k then some o.version else none) = _
      rw [← ih]
      cases hr : lastVersionFor rest k with
      | some v => simp
      | none => simpa using hp

theorem nodup_mapKeys_foldl_addOpset (l : List OperatorSetIdProto)
    (m : List (String × Int)) (h : (mapKeys m).Nodup) :
    (mapKeys (l.foldl addOpset m)).Nodup := by
  induction l generalizing m with
  | nil => simpa
  | cons o rest ih =>
    rw [List.foldl_cons]
    exact ih _ (by rw [addOpset_eq]; exact nodup_mapKeys_mapInsert _ _ _ h)

theorem nodup_mapKeys_normalizeOpsets (l : List OperatorSetIdProto) :
    (mapKeys (normalizeOpsets l)).Nodup :=
  nodup_mapKeys_foldl_addOpset l [] (by simp [mapKeys])

/-! ### The default-fill loop -/

theorem mapFind?_foldl_fillStep (latest : List (String × Int))
    (acc : List (String × Int) × ModelProto) (k : String) :
    mapFind? (latest.foldl fillStep acc).1 k =
      match mapFind? acc.1 k with
      | some v => some v
      | none => mapFind? latest k := by
  induction latest generalizing acc with
  | nil =>
    simp only [List.foldl_nil, mapFind?]
    cases mapFind? acc.1 k <;> simp
  | cons p rest ih =>
    rw [List.foldl_cons, ih (fillStep acc p)]
    by_cases hin : mapFind? acc.1 p.1 = none
    · by_cases hk : p.1 = k
      · subst hk
        rw [show fillStep acc p = (mapInsert acc.1 p.1 p.2,
            { acc.2 with opsetImport := acc.2.opsetImport ++ [⟨p.1, p.2⟩] }) from by
          simp [fillStep, hin]]
        simp only [mapFind?_mapInsert_self, hin, mapFind?]
        simp
      · rw [show fillStep acc p = (mapInsert acc.1 p.1 p.2,
            { acc.2 with opsetImport := acc.2.opsetImport ++ [⟨p.1, p.2⟩] }) from by
          simp [fillStep, hin]]
        simp only [mapFind?_mapInsert_ne _ _ _ _ hk]
        cases mapFind? acc.1 k <;> simp [mapFind?, hk]
    · rw [show fillStep acc p = acc from by simp [fillStep, hin]]
      cases hacc : mapFind? acc.1 k with
      | some v => simp
      | none =>
        have hk : p.1 ≠ k := fun h => hin (h ▸ hacc)
        simp [mapFind?, hk]

theorem opsetImport_foldl_fillStep (latest : List (String × Int))
    (acc : List (String × Int) × ModelProto) :
    ∃ tl, (latest.foldl fillStep acc).2.opsetImport = acc.2.opsetImport ++ tl := by
  induction latest generalizing acc with
  | nil => exact ⟨[], by simp⟩
  | cons p rest ih =>
    rw [List.foldl_cons]
    by_cases hin : mapFind? acc.1 p.1 = none
    · rw [show fillStep acc p = (mapInsert acc.1 p.1 p.2,
          { acc.2 with opsetImport := acc.2.opsetImport ++ [⟨p.1, p.2⟩] }) from by
        simp [fillStep, hin]]
      obtain ⟨tl, htl⟩ := ih (mapInsert acc.1 p.1 p.2,
        { acc.2 with opsetImport := acc.2.opsetImport ++ [⟨p.1, p.2⟩] })
      exact ⟨⟨p.1, p.2⟩ :: tl, by simpa using htl⟩
    · rw [show fillStep acc p = acc from by simp [fillStep, hin]]
      exact ih acc

theorem fields_foldl_fillStep (latest : List (String × Int))
    (acc : List (String × Int) × ModelProto) :
    (latest.foldl fillStep acc).2.graph = acc.2.graph ∧
    (latest.foldl fillStep acc).2.metadataProps = acc.2.metadataProps ∧
    (latest.foldl fillStep acc).2.functions = acc.2.functions ∧
    (latest.foldl fillStep acc).2.irVersion = acc.2.irVersion ∧
    (latest.foldl fillStep acc).2.producerName = acc.2.producerName := by
  induction latest generalizing acc with
  | nil => simp
  | cons p rest ih =>
    rw [List.foldl_cons]
    by_cases hin : mapFind? acc.1 p.1 = none
    · rw [show fillStep acc p = (mapInsert acc.1 p.1 p.2,
          { acc.2 with opsetImport := acc.2.opsetImport ++ [⟨p.1, p.2⟩] }) from by
        simp [fillStep, hin]]
      simpa using ih _
    · rw [show fillStep acc p = acc from by simp [fillStep, hin]]
      exact ih acc

theorem mem_opsetImport_foldl_fillStep (latest : List (String × Int))
    (acc : List (String × Int) × ModelProto) (k : String) (v : Int)
    (hnone : mapFind? acc.1 k = none) (hfind : mapFind? latest k = some v) :
    (OperatorSetIdProto.mk k v) ∈ (latest.foldl fillStep acc).2.opsetImport := by
  induction latest generalizing acc with
  | nil => simp [mapFind?] at hfind
  | cons p rest ih =>
    rw [List.foldl_cons]
    by_cases hin : mapFind? acc.1 p.1 = none
    · rw [show fillStep acc p = (mapInsert acc.1 p.1 p.2,
          { acc.2 with opsetImport := acc.2.opsetImport ++ [⟨p.1, p.2⟩] }) from by
        simp [fillStep, hin]]
      by_cases hk : p.1 = k
      · have hv : p.2 = v := by
          subst hk
          simpa [mapFind?] using hfind
        subst hk
        subst hv
        obtain ⟨tl, htl⟩ := opsetImport_foldl_fillStep rest (mapInsert acc.1 p.1 p.2,
          { acc.2 with opsetImport := acc.2.opsetImport ++ [⟨p.1, p.2⟩] })
        rw [htl]
        simp
      · have hfind2 : mapFind? rest k = some v := by simpa [mapFind?, hk] using hfind
        exact ih _ (by rw [mapFind?_mapInsert_ne _ _ _ _ hk]; exact hnone) hfind2
    · rw [show fillStep acc p = acc from by simp [fillStep, hin]]
      have hk : p.1 ≠ k := fun h => hin (h ▸ hnone)
      have hfind2 : mapFind? rest k = some v := by simpa [mapFind?, hk] using hfind
      exact ih acc hnone hfind2

theorem nodup_mapKeys_foldl_fillStep (latest : List (String × Int))
    (acc : List (String × Int) × ModelProto) (h : (mapKeys acc.1).Nodup) :
    (mapKeys (latest.foldl fillStep acc).1).Nodup := by
  induction latest generalizing acc with
  | nil => simpa
  | cons p rest ih =>
    rw [List.foldl_cons]
    by_cases hin : mapFind? acc.1 p.1 = none
    · rw [show fillStep acc p = (mapInsert acc.1 p.1 p.2,
          { acc.2 with opsetImport := acc.2.opsetImport ++ [⟨p.1, p.2⟩] }) from by
        simp [fillStep, hin]]
      exact ih _ (nodup_mapKeys_mapInsert _ _ _ h)
    · rw [show fillStep acc p = acc from by simp [fillStep, hin]]
      exact ih acc h

theorem foldl_fillStep_id_of_covered (latest : List (String × Int))
    (acc : List (String × Int) × ModelProto)
    (h : ∀ p ∈ latest, mapFind? acc.1 p.1 ≠ none) :
    latest.foldl fillStep acc = acc := by
  induction latest with
  | nil => simp
  | cons p rest ih =>
    rw [List.foldl_cons]
    rw [show fillStep acc p = acc from by
      simp only [fillStep]
      rw [if_neg (h p (List.mem_cons_self p rest))]]
    exact ih fun q hq => h q (List.mem_cons_of_mem p hq)

/-! ### Characterization of the decode constructor -/

theorem ofProto_ok_elim (proto : ModelProto) (latest : List (String × Int)) (m : Model)
    (h : Model.ofProto (some proto) latest = Except.ok m) :
    proto.graph.isSome = true ∧ proto.opsetImport ≠ [] ∧
    m.model_proto = (latest.foldl fillStep (normalizeOpsets proto.opsetImport, proto)).2 ∧
    m.domain_to_version = (latest.foldl fillStep (normalizeOpsets proto.opsetImport, proto)).1 ∧
    m.model_metadata = buildMetaData proto.metadataProps := by
  simp only [Model.ofProto] at h
  by_cases h1 : proto.graph.isNone = true
  · rw [if_pos h1] at h
    exact absurd h (by simp)
  · rw [if_neg h1] at h
    by_cases h2 : proto.opsetImport.length = 0
    · rw [if_pos h2] at h
      exact absurd h (by simp)
    · rw [if_neg h2] at h
      simp only [Except.ok.injEq] at h
      subst h
      refine ⟨?_, ?_, rfl, rfl, rfl⟩
      · cases hx : proto.graph
        · rw [hx] at h1
          simp at h1
        · simp
      · exact fun hl => h2 (by simp [hl])

theorem ofProto_ok_intro (proto : ModelProto) (latest : List (String × Int))
    (h1 : proto.graph.isSome = true) (h2 : proto.opsetImport ≠ []) :
    Model.ofProto (some proto) latest = Except.ok
      { model_proto := (latest.foldl fillStep (normalizeOpsets proto.opsetImport, proto)).2
        model_metadata := buildMetaData proto.metadataProps
        domain_to_version := (latest.foldl fillStep (normalizeOpsets proto.opsetImport, proto)).1
        model_functions_map :=
          buildFunctionsMap (latest.foldl fillStep (normalizeOpsets proto.opsetImport, proto)).2.functions } := by
  simp only [Model.ofProto]
  have hg : proto.graph.isNone = false := by
    cases hx : proto.graph
    · rw [hx] at h1
      simp at h1
    · simp
  rw [if_neg (by simp [hg])]
  rw [if_neg (fun hl => h2 (by simpa using hl))]

/-! ### Claim theorems -/

/-- C9: the stream-decode entry point checks the stream's state first and
the output-descriptor pointer second: with a good stream and a null output
pointer it returns InvalidArgument naming the null pointer, and with a bad
stream it returns InvalidArgument for the stream; in both cases the parse
primitive is never invoked (second component `false`), so no bytes are read. -/
theorem C9_stream_guards (protoPtrNull parseOk eofReached : Bool) :
    Model.LoadStream true true parseOk eofReached =
      (Status.error StatusCategory.ONNXRUNTIME INVALID_ARGUMENT "Null model_proto ptr.", false) ∧
    Model.LoadStream false protoPtrNull parseOk eofReached =
      (Status.error StatusCategory.ONNXRUNTIME INVALID_ARGUMENT "Invalid istream object.", false) :=
  ⟨rfl, rfl⟩

/-- C5: every successfully constructed Model has a non-empty opset-import
list in its owned descriptor: the fresh constructor (any caller-supplied
domain-to-version map, given that the registry reports at least one domain)
and the decode constructor both guarantee it. -/
theorem C5_opset_nonempty (graph_name : String) (md : List (String × String))
    (d2v latest latest2 : List (String × Int)) (fns : List FunctionProto)
    (proto? : Option ModelProto) (m : Model)
    (hlatest : latest ≠ []) (hdec : Model.ofProto proto? latest2 = Except.ok m) :
    (Model.fresh graph_name md d2v latest fns).model_proto.opsetImport ≠ [] ∧
    m.model_proto.opsetImport ≠ [] := by
  constructor
  · simp only [Model.fresh]
    by_cases hd : d2v.isEmpty
    · simp [hd, hlatest]
    · have hd2 : d2v ≠ [] := by simpa [List.isEmpty_iff] using hd
      simp [hd, hd2]
  · cases proto? with
    | none => simp [Model.ofProto] at hdec
    | some proto =>
      obtain ⟨hg, hne, hmp, hd2v, hmd⟩ := ofProto_ok_elim proto latest2 m hdec
      obtain ⟨tl, htl⟩ := opsetImport_foldl_fillStep latest2 (normalizeOpsets proto.opsetImport, proto)
      rw [hmp, htl]
      simp [hne]

/-- C3: for a descriptor whose opset-import entries in the default domain
(after alias normalization) are exactly the canonical spelling at version 9
followed by the alias spelling at version 11, the decode constructor's
resolved domain-to-version table has exactly one entry for the canonical
key, and its version is 11: the entry processed later in list order wins. -/
theorem C3_alias_tie_break (proto : ModelProto) (latest : List (String × Int)) (m : Model)
    (hfilter : proto.opsetImport.filter (fun o => normDomain o.domain == kOnnxDomain) =
      [⟨kOnnxDomain, 9⟩, ⟨kOnnxDomainAlias, 11⟩])
    (hctor : Model.ofProto (some proto) latest = Except.ok m) :
    m.domain_to_version.filter (fun p => p.1 == kOnnxDomain) = [(kOnnxDomain, 11)] := by
  obtain ⟨hg, hne, hmp, hd2v, hmd⟩ := ofProto_ok_elim proto latest m hctor
  have hlast : lastVersionFor proto.opsetImport kOnnxDomain = some 11 := by
    rw [lastVersionFor_filter, hfilter]
    decide
  have hnorm : mapFind? (normalizeOpsets proto.opsetImport) kOnnxDomain = some 11 := by
    rw [normalizeOpsets, mapFind?_foldl_addOpset, hlast]
  have hfill : mapFind? m.domain_to_version kOnnxDomain = some 11 := by
    rw [hd2v, mapFind?_foldl_fillStep]
    simp [hnorm]
  have hnd : (mapKeys m.domain_to_version).Nodup := by
    rw [hd2v]
    exact nodup_mapKeys_foldl_fillStep _ _ (nodup_mapKeys_normalizeOpsets _)
  exact filter_key_single_of_nodup _ _ _ hnd hfill

/-- C4: in the decode constructor, after the explicit opset-import list is
processed, every registry domain absent from the resolved table is added
with the registry's latest version to both the resolved table and the
descriptor's opset-import list, and the step removes or changes no existing
entry of either (the list only grows by appended entries). -/
theorem C4_default_fill (proto : ModelProto) (latest : List (String × Int)) (m : Model)
    (hnodup : (mapKeys latest).Nodup)
    (hctor : Model.ofProto (some proto) latest = Except.ok m) :
    (∀ p ∈ latest, mapFind? (normalizeOpsets proto.opsetImport) p.1 = none →
      mapFind? m.domain_to_version p.1 = some p.2 ∧
      (OperatorSetIdProto.mk p.1 p.2) ∈ m.model_proto.opsetImport) ∧
    (∀ k v, mapFind? (normalizeOpsets proto.opsetImport) k = some v →
      mapFind? m.domain_to_version k = some v) ∧
    (∃ tl, m.model_proto.opsetImport = proto.opsetImport ++ tl) := by
  obtain ⟨hg, hne, hmp, hd2v, hmd⟩ := ofProto_ok_elim proto latest m hctor
  refine ⟨?_, ?_, ?_⟩
  · intro p hp hnone
    have hfindlatest : mapFind? latest p.1 = some p.2 := by
      apply mapFind?_of_mem_nodup latest p.1 p.2 hnodup
      simpa using hp
    constructor
    · rw [hd2v, mapFind?_foldl_fillStep]
      simp [hnone, hfindlatest]
    · rw [hmp]
      exact mem_opsetImport_foldl_fillStep latest _ p.1 p.2 hnone hfindlatest
  · intro k v hv
    rw [hd2v, mapFind?_foldl_fillStep]
    simp [hv]
  · rw [hmp]
    exact opsetImport_foldl_fillStep latest _

/-- C6: for a descriptor whose opset-import list already covers (after alias
normalization) every domain the registry reports, decoding and re-encoding
yields an opset-import list identical to the input's, and a second
decode-encode round trip changes nothing: the default-fill step is
idempotent. -/
theorem C6_fill_idempotent (proto : ModelProto) (latest : List (String × Int))
    (g g2 : GraphProto) (m : Model)
    (hctor : Model.ofProto (some proto) latest = Except.ok m)
    (hcov : ∀ p ∈ latest, mapFind? (normalizeOpsets proto.opsetImport) p.1 ≠ none) :
    (m.ToProto g).opsetImport = proto.opsetImport ∧
    ∃ m2, Model.ofProto (some (m.ToProto g)) latest = Except.ok m2 ∧
      (m2.ToProto g2).opsetImport = proto.opsetImport := by
  obtain ⟨hg, hne, hmp, hd2v, hmd⟩ := ofProto_ok_elim proto latest m hctor
  have hid : latest.foldl fillStep (normalizeOpsets proto.opsetImport, proto) =
      (normalizeOpsets proto.opsetImport, proto) :=
    foldl_fillStep_id_of_covered latest _ hcov
  have h1 : m.model_proto = proto := by rw [hmp, hid]
  constructor
  · simp [Model.ToProto, h1]
  · have hg2 : (m.ToProto g).graph.isSome = true := by simp [Model.ToProto]
    have hne2 : (m.ToProto g).opsetImport ≠ [] := by
      simpa [Model.ToProto, h1] using hne
    refine ⟨_, ofProto_ok_intro (m.ToProto g) latest hg2 hne2, ?_⟩
    have hsame : (m.ToProto g).opsetImport = proto.opsetImport := by
      simp [Model.ToProto, h1]
    have hcov2 : ∀ p ∈ latest,
        mapFind? (normalizeOpsets (m.ToProto g).opsetImport) p.1 ≠ none := by
      rw [hsame]
      exact hcov
    have hid2 : latest.foldl fillStep
        (normalizeOpsets (m.ToProto g).opsetImport, m.ToProto g) =
        (normalizeOpsets (m.ToProto g).opsetImport, m.ToProto g) :=
      foldl_fillStep_id_of_covered latest _ hcov2
    show (List.foldl fillStep
      (normalizeOpsets (Model.ToProto m g).opsetImport, Model.ToProto m g) latest).2.opsetImport =
      proto.opsetImport
    rw [hid2]
    exact hsame

/-- C10: alias normalization mutates only the in-memory resolved table: the
stored descriptor's opset-import list keeps every original entry — in
particular an alias-spelled entry with its original spelling and version —
at its original position (the fill step only appends), the descriptor's
other fields are untouched, and re-serialization via ToProto reproduces the
alias spelling rather than the canonical key. -/
theorem C10_alias_frame (proto : ModelProto) (latest : List (String × Int)) (m : Model)
    (g : GraphProto) (v : Int)
    (hmem : (OperatorSetIdProto.mk kOnnxDomainAlias v) ∈ proto.opsetImport)
    (hctor : Model.ofProto (some proto) latest = Except.ok m) :
    (∃ tl, m.model_proto.opsetImport = proto.opsetImport ++ tl) ∧
    (OperatorSetIdProto.mk kOnnxDomainAlias v) ∈ m.model_proto.opsetImport ∧
    (m.ToProto g).opsetImport = m.model_proto.opsetImport ∧
    (OperatorSetIdProto.mk kOnnxDomainAlias v) ∈ (m.ToProto g).opsetImport ∧
    m.model_proto.metadataProps = proto.metadataProps ∧
    m.model_proto.functions = proto.functions := by
  obtain ⟨hg, hne, hmp, hd2v, hmd⟩ := ofProto_ok_elim proto latest m hctor
  obtain ⟨tl, htl⟩ :=
    opsetImport_foldl_fillStep latest (normalizeOpsets proto.opsetImport, proto)
  have hlist : m.model_proto.opsetImport = proto.opsetImport ++ tl := by
    rw [hmp]
    exact htl
  have hmem2 : (OperatorSetIdProto.mk kOnnxDomainAlias v) ∈ m.model_proto.opsetImport := by
    rw [hlist]
    exact List.mem_append_left _ hmem
  obtain ⟨hgr, hmdp, hfns, hir, hpn⟩ :=
    fields_foldl_fillStep latest (normalizeOpsets proto.opsetImport, proto)
  refine ⟨⟨tl, hlist⟩, hmem2, by simp [Model.ToProto], ?_, ?_, ?_⟩
  · simpa [Model.ToProto] using hmem2
  · rw [hmp]
    exact hmdp
  · rw [hmp]
    exact hfns

/-- C7: for a path-based load whose file-open primitive fails, the returned
status is determined solely by the OS error code of the failure: ENOENT
yields NoSuchFile, EINVAL yields InvalidArgument, and any other errno yields
Fail with the error code embedded in the message; in every case the close
count is 0, the handle stays unbound, and the decode/construction/resolve
outcomes (universally quantified here) are never consulted.  The open
primitive itself lives outside this translation unit and is modelled from
the spec as an opaque call whose failure carries the OS error code. -/
theorem C7_open_failure_mapping (errno : Nat) (parsed : Option ModelProto)
    (latest : List (String × Int)) (resolveRes closeSt : Status) :
    (errno = ENOENT →
      LoadModel (OpenResult.sysError errno) parsed latest resolveRes closeSt =
        ((none, Status.error StatusCategory.ONNXRUNTIME NO_SUCHFILE
          "Load model failed. File doesn't exist"), 0)) ∧
    (errno = EINVAL →
      LoadModel (OpenResult.sysError errno) parsed latest resolveRes closeSt =
        ((none, Status.error StatusCategory.ONNXRUNTIME INVALID_ARGUMENT
          "Load model failed"), 0)) ∧
    (errno ≠ ENOENT → errno ≠ EINVAL →
      LoadModel (OpenResult.sysError errno) parsed latest resolveRes closeSt =
        ((none, Status.error StatusCategory.ONNXRUNTIME FAIL
          ("system error number " ++ toString errno)), 0)) := by
  refine ⟨fun h => ?_, fun h => ?_, fun h1 h2 => ?_⟩
  · subst h
    simp [LoadModel]
  · subst h
    simp [LoadModel, EINVAL, ENOENT]
  · simp [LoadModel, h1, h2]

/-- C8: for path-based load and save, once the file is opened the handle is
closed exactly once on every exit path (success, decode failure,
construction failure via a thrown exception, resolve failure); no close
happens when the open itself failed (nothing was acquired); and a failing
close never replaces a prior substantive error: whatever the close outcome,
the pre-close error (a non-OK inner status, or the Fail status wrapping a
thrown exception) is returned verbatim.  The open/close primitives live
outside this translation unit and are modelled from the spec as opaque
calls. -/
theorem C8_close_discipline (fd : Int) (latest : List (String × Int))
    (cs : Status) (errno : Nat)
    (parsed : Option ModelProto) (resolveRes : Status) (innerS : SaveInner)
    (parsedE : Option ModelProto) (resolveE : Status) (mE : Option Model) (s : Status)
    (parsedT : Option ModelProto) (resolveT : Status) (mT : Option Model) (msg : String)
    (ssv : Status)
    (hload : Model.LoadFd fd parsedE latest resolveE = (mE, LoadResult.status s))
    (hs : s.isOK = false)
    (hthrow : Model.LoadFd fd parsedT latest resolveT = (mT, LoadResult.thrown msg))
    (hssv : ssv.isOK = false) :
    (LoadModel (OpenResult.opened fd) parsed latest resolveRes cs).2 = 1 ∧
    (SaveModel (OpenResult.opened fd) innerS cs).2 = 1 ∧
    (LoadModel (OpenResult.sysError errno) parsed latest resolveRes cs).2 = 0 ∧
    (SaveModel (OpenResult.sysError errno) innerS cs).2 = 0 ∧
    (LoadModel (OpenResult.opened fd) parsedE latest resolveE cs).1.2 = s ∧
    (LoadModel (OpenResult.opened fd) parsedT latest resolveT cs).1.2 =
      Status.error StatusCategory.ONNXRUNTIME FAIL msg ∧
    (SaveModel (OpenResult.opened fd) (SaveInner.status ssv) cs).1 = ssv ∧
    (SaveModel (OpenResult.opened fd) (SaveInner.thrown msg) cs).1 =
      Status.error StatusCategory.ONNXRUNTIME FAIL msg := by
  refine ⟨?_, ?_, ?_, ?_, ?_, ?_, ?_, ?_⟩
  · cases h : Model.LoadFd fd parsed latest resolveRes with
    | mk mres lres =>
      cases lres with
      | thrown e => simp [LoadModel, h]
      | status st => by_cases hst : st.isOK <;> simp [LoadModel, h, hst]
  · cases innerS with
    | thrown e => simp [SaveModel]
    | status st => by_cases hst : st.isOK <;> simp [SaveModel, hst]
  · by_cases h1 : errno = ENOENT
    · simp [LoadModel, h1]
    · by_cases h2 : errno = EINVAL
      · subst h2
        simp [LoadModel, EINVAL, ENOENT]
      · simp [LoadModel, h1, h2]
  · simp [SaveModel]
  · simp [LoadModel, hload, hs]
  · simp [LoadModel, hthrow]
  · simp [SaveModel, hssv]
  · simp [SaveModel]

/-- A concrete successful decode of `sampleProto` with no extra registry
domains. -/
def sampleModel : Model :=
  { model_proto := sampleProto
    model_metadata := []
    domain_to_version := [(kOnnxDomain, 9)]
    model_functions_map := [] }

/-- C1 counterexample: on the descriptor entry point a failing
`Resolve(full=true)` makes the entry return the non-OK resolve status while
the caller's output handle IS bound to the constructed Model — the claim
that a non-OK return leaves the handle unbound is false on the code. -/
theorem C1_counterexample :
    (Model.LoadProto sampleProto [] resolveFail).2 = LoadResult.status resolveFail ∧
    resolveFail.isOK = false ∧
    (Model.LoadProto sampleProto [] resolveFail).1 = some sampleModel :=
  ⟨rfl, rfl, rfl⟩

/-- C1 (amended): for the byte-buffer, fd, descriptor and file-path entry
points the output handle is bound exactly when the decode constructor
succeeds: open, parse and construction failures (including the
thrown-exception path) leave it unbound, while a `Resolve(full=true)`
failure after successful construction leaves it bound to the constructed
Model, with the non-OK resolve status returned — on the path surface too,
whatever the close outcome. -/
theorem C1_handle_binding (parsed : Option ModelProto) (mp : ModelProto)
    (latest : List (String × Int)) (resolveRes closeSt : Status) (fd : Int) (errno : Nat)
    (hfd : 0 ≤ fd) :
    ((Model.LoadFromBytes parsed latest resolveRes).1.isSome = true ↔
      ∃ p m, parsed = some p ∧ Model.ofProto (some p) latest = Except.ok m) ∧
    ((Model.LoadFd fd parsed latest resolveRes).1.isSome = true ↔
      ∃ p m, parsed = some p ∧ Model.ofProto (some p) latest = Except.ok m) ∧
    ((Model.LoadProto mp latest resolveRes).1.isSome = true ↔
      ∃ m, Model.ofProto (some mp) latest = Except.ok m) ∧
    ((LoadModel (OpenResult.opened fd) parsed latest resolveRes closeSt).1.1.isSome = true ↔
      ∃ p m, parsed = some p ∧ Model.ofProto (some p) latest = Except.ok m) ∧
    ((LoadModel (OpenResult.sysError errno) parsed latest resolveRes closeSt).1.1 = none) ∧
    (∀ p m, parsed = some p → Model.ofProto (some p) latest = Except.ok m →
      resolveRes.isOK = false →
      Model.LoadFromBytes parsed latest resolveRes = (some m, LoadResult.status resolveRes) ∧
      LoadModel (OpenResult.opened fd) parsed latest resolveRes closeSt =
        ((some m, resolveRes), 1)) := by
  have hfdiff : (Model.LoadFd fd parsed latest resolveRes).1.isSome = true ↔
      ∃ p m, parsed = some p ∧ Model.ofProto (some p) latest = Except.ok m := by
    rw [Model.LoadFd.eq_def, if_neg (not_lt.mpr hfd)]
    cases parsed with
    | none => simp
    | some proto =>
      cases hc : Model.ofProto (some proto) latest with
      | error e => simp [hc]
      | ok m => by_cases hr : resolveRes.isOK <;> simp [hc, hr]
  have hhandle : (LoadModel (OpenResult.opened fd) parsed latest resolveRes closeSt).1.1 =
      (Model.LoadFd fd parsed latest resolveRes).1 := by
    cases h : Model.LoadFd fd parsed latest resolveRes with
    | mk mres lres =>
      cases lres with
      | thrown e => simp [LoadModel, h]
      | status s => by_cases hst : s.isOK <;> simp [LoadModel, h, hst]
  refine ⟨?_, hfdiff, ?_, ?_, ?_, ?_⟩
  · cases parsed with
    | none => simp [Model.LoadFromBytes]
    | some proto =>
      cases hc : Model.ofProto (some proto) latest with
      | error e => simp [Model.LoadFromBytes, hc]
      | ok m =>
        by_cases hr : resolveRes.isOK <;> simp [Model.LoadFromBytes, hc, hr]
  · by_cases hgr : mp.graph.isNone = true
    · rw [Model.LoadProto.eq_def, if_pos hgr]
      constructor
      · intro h
        simp at h
      · rintro ⟨m, hm⟩
        obtain ⟨hg, -, -, -, -⟩ := ofProto_ok_elim mp latest m hm
        rw [Option.isNone_iff_eq_none] at hgr
        rw [hgr] at hg
        simp at hg
    · rw [Model.LoadProto.eq_def, if_neg hgr]
      cases hc : Model.ofProto (some mp) latest with
      | error e => simp [hc]
      | ok m => by_cases hr : resolveRes.isOK <;> simp [hc, hr]
  · rw [hhandle]
    exact hfdiff
  · by_cases h1 : errno = ENOENT
    · simp [LoadModel, h1]
    · by_cases h2 : errno = EINVAL
      · subst h2
        simp [LoadModel, EINVAL, ENOENT]
      · simp [LoadModel, h1, h2]
  · intro p m hp hm hr
    subst hp
    have hfdres : Model.LoadFd fd (some p) latest resolveRes =
        (some m, LoadResult.status resolveRes) := by
      rw [Model.LoadFd.eq_def, if_neg (not_lt.mpr hfd)]
      simp [hm, hr]
    refine ⟨by simp [Model.LoadFromBytes, hm, hr], ?_⟩
    simp [LoadModel, hfdres, hr]

/-- C2 counterexample: the byte-buffer entry point, fed bytes that decode to
a descriptor with no graph field, lets the construction fault escape as a
raw exception instead of returning an InvalidArgument status, and binds no
model. -/
theorem C2_counterexample :
    (Model.LoadFromBytes (some noGraphProto) [] Status.ok).2 =
      LoadResult.thrown "ModelProto does not have a graph." ∧
    (Model.LoadFromBytes (some noGraphProto) [] Status.ok).1 = none :=
  ⟨rfl, rfl⟩

/-- C2 (amended): a violated construction precondition (null descriptor, no
graph, empty opset-import list) surfaces differently per entry point: the
descriptor-based entry point catches the fault and returns an
InvalidArgument status wrapping the message; the byte-buffer and fd entry
points have no handler, so the fault escapes as a raw exception; the
path-based entry point catches the escaped exception and converts it to a
Fail status carrying the message. -/
theorem C2_precondition_surface (p : ModelProto) (latest : List (String × Int))
    (resolveRes closeSt : Status) (fd : Int) (e : String)
    (hfd : 0 ≤ fd)
    (hctor : Model.ofProto (some p) latest = Except.error e) :
    (∃ msg, (Model.LoadProto p latest resolveRes).2 =
      LoadResult.status (Status.error StatusCategory.ONNXRUNTIME INVALID_ARGUMENT msg)) ∧
    (Model.LoadFromBytes (some p) latest resolveRes).2 = LoadResult.thrown e ∧
    (Model.LoadFd fd (some p) latest resolveRes).2 = LoadResult.thrown e ∧
    (LoadModel (OpenResult.opened fd) (some p) latest resolveRes closeSt).1.2 =
      Status.error StatusCategory.ONNXRUNTIME FAIL e := by
  have hfdres : Model.LoadFd fd (some p) latest resolveRes = (none, LoadResult.thrown e) := by
    rw [Model.LoadFd.eq_def, if_neg (not_lt.mpr hfd)]
    simp [hctor]
  refine ⟨?_, ?_, ?_, ?_⟩
  · by_cases hgr : p.graph.isNone = true
    · exact ⟨"No graph was found in the protobuf.", by rw [Model.LoadProto.eq_def, if_pos hgr]⟩
    · exact ⟨"Failed to load model with error: " ++ e, by
        rw [Model.LoadProto.eq_def, if_neg hgr]
        simp [hctor]⟩
  · simp [Model.LoadFromBytes, hctor]
  · rw [hfdres]
  · simp [LoadModel, hfdres]

/-! ### Witnesses: concrete runs of the theorems above -/

/-- A descriptor carrying the canonical key at 9 and the alias at 11. -/
def proto3 : ModelProto :=
  { graph := some sampleGraph
    opsetImport := [⟨kOnnxDomain, 9⟩, ⟨kOnnxDomainAlias, 11⟩] }

/-- The model produced by decoding `proto3` against a registry reporting
`ai.onnx.ml` at version 1. -/
def model3 : Model :=
  { model_proto :=
      { graph := some sampleGraph
        opsetImport := [⟨kOnnxDomain, 9⟩, ⟨kOnnxDomainAlias, 11⟩, ⟨"ai.onnx.ml", 1⟩] }
    model_metadata := []
    domain_to_version := [(kOnnxDomain, 11), ("ai.onnx.ml", 1)]
    model_functions_map := [] }

/-- A registry outcome with the default domain at 13 and `com.ms` at 2. -/
def latest4 : List (String × Int) := [(kOnnxDomain, 13), ("com.ms", 2)]

/-- The model produced by decoding `sampleProto` against `latest4`. -/
def model4 : Model :=
  { model_proto :=
      { graph := some sampleGraph
        opsetImport := [⟨kOnnxDomain, 9⟩, ⟨"com.ms", 2⟩] }
    model_metadata := []
    domain_to_version := [(kOnnxDomain, 9), ("com.ms", 2)]
    model_functions_map := [] }

/-- A failing outcome of the `FileClose` primitive. -/
def closeFail : Status := Status.error StatusCategory.SYSTEM 9 "close failed"

/-- The status returned when protobuf parsing of a byte source fails. -/
def parseFailStatus : Status :=
  Status.error StatusCategory.ONNXRUNTIME INVALID_PROTOBUF "Protobuf parsing failed."

/-- A descriptor whose only opset entry uses the alias spelling. -/
def proto10 : ModelProto :=
  { graph := some sampleGraph, opsetImport := [⟨kOnnxDomainAlias, 11⟩] }

/-- The model produced by decoding `proto10` with no extra registry domains. -/
def model10 : Model :=
  { model_proto := proto10
    model_metadata := []
    domain_to_version := [(kOnnxDomain, 11)]
    model_functions_map := [] }

/-- C1 witness: a concrete byte-buffer load and a concrete path-based load
whose construction succeeds and whose resolve fails both return the failing
status with the handle bound (the path surface also closing the file once). -/
theorem C1_witness :
    Model.LoadFromBytes (some sampleProto) [] resolveFail =
      (some sampleModel, LoadResult.status resolveFail) ∧
    LoadModel (OpenResult.opened 0) (some sampleProto) [] resolveFail Status.ok =
      ((some sampleModel, resolveFail), 1) :=
  (C1_handle_binding (some sampleProto) sampleProto [] resolveFail Status.ok 0 5
      (by decide)).2.2.2.2.2 sampleProto sampleModel rfl rfl rfl

/-- C2 witness: a concrete no-graph descriptor makes the fd entry point
throw and makes the path entry point return Fail wrapping the message. -/
theorem C2_witness :
    (Model.LoadFd 0 (some noGraphProto) [] Status.ok).2 =
      LoadResult.thrown "ModelProto does not have a graph." ∧
    (LoadModel (OpenResult.opened 0) (some noGraphProto) [] Status.ok Status.ok).1.2 =
      Status.error StatusCategory.ONNXRUNTIME FAIL "ModelProto does not have a graph." :=
  ⟨(C2_precondition_surface noGraphProto [] Status.ok Status.ok 0
      "ModelProto does not have a graph." (by decide) rfl).2.2.1,
   (C2_precondition_surface noGraphProto [] Status.ok Status.ok 0
      "ModelProto does not have a graph." (by decide) rfl).2.2.2⟩

/-- C3 witness: decoding `proto3` yields exactly one canonical-key entry, at
version 11. -/
theorem C3_witness :
    model3.domain_to_version.filter (fun p => p.1 == kOnnxDomain) = [(kOnnxDomain, 11)] :=
  C3_alias_tie_break proto3 [("ai.onnx.ml", 1)] model3 (by decide) rfl

/-- C4 witness: decoding `sampleProto` against `latest4` adds the absent
registry domain `com.ms` at its latest version 2 to both the table and the
descriptor's list. -/
theorem C4_witness :
    mapFind? model4.domain_to_version "com.ms" = some 2 ∧
    (OperatorSetIdProto.mk "com.ms" 2) ∈ model4.model_proto.opsetImport :=
  (C4_default_fill sampleProto latest4 model4 (by decide) rfl).1 ("com.ms", 2)
    (by decide) (by decide)

/-- C5 witness: a concrete fresh model and a concrete decoded model both
carry a non-empty opset-import list. -/
theorem C5_witness :
    (Model.fresh "g" [] [] [(kOnnxDomain, 13)] []).model_proto.opsetImport ≠ [] ∧
    sampleModel.model_proto.opsetImport ≠ [] :=
  C5_opset_nonempty "g" [] [] [(kOnnxDomain, 13)] [] [] (some sampleProto) sampleModel
    (by decide) rfl

/-- C6 witness: re-encoding the decode of `sampleProto` (whose list already
covers a registry reporting only the default domain) reproduces the input
opset-import list. -/
theorem C6_witness :
    (sampleModel.ToProto sampleGraph).opsetImport = sampleProto.opsetImport :=
  (C6_fill_idempotent sampleProto [(kOnnxDomain, 13)] sampleGraph sampleGraph sampleModel
    rfl (by decide)).1

/-- C7 witness: the three concrete open-failure mappings (errno 2, 22, 5). -/
theorem C7_witness :
    LoadModel (OpenResult.sysError 2) none [] Status.ok Status.ok =
      ((none, Status.error StatusCategory.ONNXRUNTIME NO_SUCHFILE
        "Load model failed. File doesn't exist"), 0) ∧
    LoadModel (OpenResult.sysError 22) none [] Status.ok Status.ok =
      ((none, Status.error StatusCategory.ONNXRUNTIME INVALID_ARGUMENT
        "Load model failed"), 0) ∧
    LoadModel (OpenResult.sysError 5) none [] Status.ok Status.ok =
      ((none, Status.error StatusCategory.ONNXRUNTIME FAIL "system error number 5"), 0) :=
  ⟨(C7_open_failure_mapping 2 none [] Status.ok Status.ok).1 rfl,
   (C7_open_failure_mapping 22 none [] Status.ok Status.ok).2.1 rfl,
   (C7_open_failure_mapping 5 none [] Status.ok Status.ok).2.2 (by decide) (by decide)⟩

/-- C8 witness: concrete close counts on all four path outcomes, and a
failing close (`closeFail`) never replacing the prior decode error, thrown
exception or failing save status. -/
theorem C8_witness :
    (LoadModel (OpenResult.opened 0) (some sampleProto) [] Status.ok closeFail).2 = 1 ∧
    (SaveModel (OpenResult.opened 0) (SaveInner.status Status.ok) closeFail).2 = 1 ∧
    (LoadModel (OpenResult.sysError 5) (some sampleProto) [] Status.ok closeFail).2 = 0 ∧
    (SaveModel (OpenResult.sysError 5) (SaveInner.status Status.ok) closeFail).2 = 0 ∧
    (LoadModel (OpenResult.opened 0) none [] Status.ok closeFail).1.2 = parseFailStatus ∧
    (LoadModel (OpenResult.opened 0) (some noGraphProto) [] Status.ok closeFail).1.2 =
      Status.error StatusCategory.ONNXRUNTIME FAIL "ModelProto does not have a graph." ∧
    (SaveModel (OpenResult.opened 0) (SaveInner.status resolveFail) closeFail).1 = resolveFail ∧
    (SaveModel (OpenResult.opened 0)
      (SaveInner.thrown "ModelProto does not have a graph.") closeFail).1 =
      Status.error StatusCategory.ONNXRUNTIME FAIL "ModelProto does not have a graph." :=
  C8_close_discipline 0 [] closeFail 5 (some sampleProto) Status.ok
    (SaveInner.status Status.ok) none Status.ok none parseFailStatus
    (some noGraphProto) Status.ok none "ModelProto does not have a graph."
    resolveFail rfl rfl rfl rfl

/-- C10 witness: the alias-spelled entry of `proto10` survives decoding and
re-serialization with its spelling and version intact. -/
theorem C10_witness :
    (OperatorSetIdProto.mk kOnnxDomainAlias 11) ∈ model10.model_proto.opsetImport ∧
    (OperatorSetIdProto.mk kOnnxDomainAlias 11) ∈ (model10.ToProto sampleGraph).opsetImport :=
  ⟨(C10_alias_frame proto10 [] model10 sampleGraph 11 (by decide) rfl).2.1,
   (C10_alias_frame proto10 [] model10 sampleGraph 11 (by decide) rfl).2.2.2.1⟩
